import Mathlib

/-!
# Todoist Terraform provider: the project client and the project resource

A shallow embedding of `internal/client/projects.go` (the four project
operations of the HTTP client and their payload types) and of the `Create`
callback of `internal/provider/resource_projects.go`, with the properties of
the specification stated and proved over it.

Conventions of the embedding:

* a Go `string` is a sequence of bytes (`GoString`);
* a Go `error` is `Option GoError`, `none` being `nil`; a Go pointer `*T` is
  `Option T`, `none` being `nil`; a result `(*Project, error)`, which the
  source returns either as `nil, err` or as `&res, nil`, is
  `Except GoError Project`;
* `c.sendRequest` lives in a file of the client package that is not part of
  the sources at hand, and `http.NewRequest` is the standard library: both are
  taken as parameters (`Env`), so every theorem holds for whatever they do;
* the remote service is a state of an arbitrary type `σ` threaded through the
  calls of `sendRequest`; every call of `sendRequest` is recorded, in order,
  in the `sent` list of the run;
* `json.Marshal` and `json.Unmarshal` are modelled on JSON values instead of
  JSON text (the text the one writes is read by the other as the same
  value), following the documented behaviour of `encoding/json` for the
  struct tags written in the source;
* the `logrus` and `tflog` calls only write log lines and are left out.
-/

namespace Todoist

/-! ## Strings and errors -/

/-- A Go string: an arbitrary sequence of bytes. -/
abbrev GoString := List UInt8

/-- The bytes of a string literal of the source. -/
def lit (s : String) : GoString := s.toUTF8.data.toList

/-- A Go error value, identified by its message. -/
structure GoError where
  msg : GoString
deriving DecidableEq, Repr

/-- The call `fmt.Errorf(msg)` with the format string already expanded. -/
def Errorf (msg : GoString) : GoError := ⟨msg⟩

/-! ## JSON values -/

/-- A JSON value as a field of the structs of this package can meet it.
`other` stands for every value no field of these structs accepts: a number
that is not an integer, an array, an object. -/
inductive JsonValue where
  | null
  | bool (b : Bool)
  | num (n : Int)
  | str (s : GoString)
  | other
deriving DecidableEq, Repr

/-- A JSON object: its members in document order. -/
abbrev JsonObject := List (GoString × JsonValue)

/-- The names of the members of an object, in document order. -/
def JsonObject.keys (o : JsonObject) : List GoString := o.map Prod.fst

/-- The value of the first member called `k`, if there is one. -/
def JsonObject.get? (o : JsonObject) (k : GoString) : Option JsonValue :=
  (o.find? (fun kv => kv.1 == k)).map Prod.snd

/-! ## The data model (`projects.go`, lines 13-26) -/

/-- The struct `Project`. Go's `int` is 64 bits wide: see `Project.intsInRange`. -/
structure Project where
  ID : GoString := []
  Name : GoString := []
  CommentCount : Int := 0
  Color : GoString := []
  IsShared : Bool := false
  Order : Int := 0
  IsFavorite : Bool := false
  IsInboxProject : Bool := false
  IsTeamInbox : Bool := false
  ViewStyle : GoString := []
  URL : GoString := []
  ParentID : GoString := []
deriving DecidableEq, Repr

/-- The struct `CreateProject` (lines 73-81). -/
structure CreateProject where
  Name : Option GoString := none
  ParentID : Option GoString := none
  Color : Option GoString := none
  IsFavorite : Option Bool := none
  ViewStyle : Option GoString := none
deriving DecidableEq, Repr

/-- The struct `UpdateProject` (lines 109-115). -/
structure UpdateProject where
  ID : Option GoString := none
  Name : Option GoString := none
  Color : Option GoString := none
  IsFavorite : Option Bool := none
  ViewStyle : Option GoString := none
deriving DecidableEq, Repr

/-! ## Requests and the send-request primitive -/

/-- A `context.Context` handed in by the caller. -/
structure Context where
  id : Nat
deriving DecidableEq, Repr

/-- What this package sets on a `http.Request`: method, URL, body (the JSON
document of the payload, `none` for a `nil` body) and context (`none` is
the background context `http.NewRequest` starts with). -/
structure Request where
  method : GoString
  url : GoString
  body : Option JsonObject
  ctx : Option Context
deriving DecidableEq, Repr

/-- The method `req.WithContext(ctx)`. -/
def Request.WithContext (req : Request) (ctx : Context) : Request :=
  { req with ctx := some ctx }

/-- What one call of `c.sendRequest(req, v)` gives back: the status code, the
raw body, the error, and the value found in the destination `v` afterwards. -/
structure SendResult (α : Type) where
  statusCode : Int
  body : GoString
  err : Option GoError
  dest : α

/-- The code this package calls and does not define. `newRequestErr method
url` is the error with which `http.NewRequest` refuses to build the request,
if it does. `sendRequest` comes once per type of destination: a
`*[]Project`, a `*Project`, and `nil`; each takes the state of the service,
the request and the value the destination holds before the call. -/
structure Env (σ : Type) where
  newRequestErr : GoString → GoString → Option GoError
  sendProjects : σ → Request → List Project → SendResult (List Project) × σ
  sendProject : σ → Request → Project → SendResult Project × σ
  sendNil : σ → Request → SendResult Unit × σ

/-- The call `http.NewRequest(method, url, body)`. -/
def NewRequest {σ : Type} (env : Env σ) (method url : GoString) (body : Option JsonObject) :
    Except GoError Request :=
  match env.newRequestErr method url with
  | some err => .error err
  | none => .ok ⟨method, url, body, none⟩

/-- One call of `sendRequest`: the request sent and the error it returned. -/
structure SendEvent where
  req : Request
  err : Option GoError
deriving DecidableEq, Repr

/-- The outcome of running an operation: what it returns, the state the
service is left in, and the calls of `sendRequest` it made, oldest first. -/
structure Run (σ α : Type) where
  ret : α
  server : σ
  sent : List SendEvent

/-- The struct `Client`, as far as this file reads it. -/
structure Client where
  BaseURL : GoString
deriving DecidableEq, Repr

/-! ## `encoding/json` on the structs of this package

`json.Marshal` writes the fields of a struct in the order of declaration,
each under the name of its `json` tag, or under the name of the Go field when
it has no tag. A nil pointer is written `null`, unless the tag carries
`omitempty`, in which case the member is left out. "String values encode as
JSON strings coerced to valid UTF-8, replacing invalid bytes with the Unicode
replacement rune" (package documentation). -/

/-- The constant `utf8.RuneError`. -/
def RuneError : Nat := 0xFFFD

/-- The tables `first` and `acceptRanges` of package `utf8`, for a byte
that is not ASCII: the width of the encoding a lead byte starts and the range
in which its second byte must be; `none` for a byte that starts no encoding. -/
def leadByte (b0 : Nat) : Option (Nat × Nat × Nat) :=
  if b0 < 0xC2 then none
  else if b0 < 0xE0 then some (2, 0x80, 0xBF)
  else if b0 = 0xE0 then some (3, 0xA0, 0xBF)
  else if b0 = 0xED then some (3, 0x80, 0x9F)
  else if b0 < 0xF0 then some (3, 0x80, 0xBF)
  else if b0 = 0xF0 then some (4, 0x90, 0xBF)
  else if b0 < 0xF4 then some (4, 0x80, 0xBF)
  else if b0 = 0xF4 then some (4, 0x80, 0x8F)
  else none

/-- The function `utf8.DecodeRune`: the first rune of `p` and its width in
bytes, `(RuneError, 0)` for the empty string and `(RuneError, 1)` when `p`
does not start with a valid encoding. The masks of the function are written
as remainders. -/
def DecodeRune (p : GoString) : Nat × Nat :=
  match p with
  | [] => (RuneError, 0)
  | p0 :: rest =>
    if p0.toNat < 0x80 then (p0.toNat, 1)
    else
      match leadByte p0.toNat with
      | none => (RuneError, 1)
      | some (sz, lo, hi) =>
        if p.length < sz then (RuneError, 1)
        else
          match rest with
          | [] => (RuneError, 1)
          | p1 :: rest1 =>
            if p1.toNat < lo ∨ hi < p1.toNat then (RuneError, 1)
            else if sz ≤ 2 then ((p0.toNat % 32) * 64 + p1.toNat % 64, 2)
            else
              match rest1 with
              | [] => (RuneError, 1)
              | p2 :: rest2 =>
                if p2.toNat < 0x80 ∨ 0xBF < p2.toNat then (RuneError, 1)
                else if sz ≤ 3 then
                  ((p0.toNat % 16) * 4096 + (p1.toNat % 64) * 64 + p2.toNat % 64, 3)
                else
                  match rest2 with
                  | [] => (RuneError, 1)
                  | p3 :: _ =>
                    if p3.toNat < 0x80 ∨ 0xBF < p3.toNat then (RuneError, 1)
                    else
                      ((p0.toNat % 8) * 262144 + (p1.toNat % 64) * 4096
                        + (p2.toNat % 64) * 64 + p3.toNat % 64, 4)

/-- The bytes of U+FFFD, the replacement rune. -/
def replacementBytes : GoString := [0xEF, 0xBF, 0xBD]

/-- The loop of `utf8.Valid`: no position decodes to `(RuneError, 1)`.
`fuel` bounds the number of runes read. -/
def validLoop : Nat → GoString → Bool
  | _, [] => true
  | 0, _ :: _ => false
  | fuel + 1, b :: rest =>
    let r := DecodeRune (b :: rest)
    if r.1 = RuneError ∧ r.2 = 1 then false
    else validLoop fuel ((b :: rest).drop r.2)

/-- The function `utf8.Valid`. -/
def ValidUTF8 (s : GoString) : Bool := validLoop s.length s

/-- The loop with which the encoder and the decoder of `encoding/json` walk
through a string: a valid encoding is kept as it is, a byte that starts none
is replaced by U+FFFD. `fuel` bounds the number of runes read. -/
def coerceLoop : Nat → GoString → GoString
  | _, [] => []
  | 0, _ :: _ => []
  | fuel + 1, b :: rest =>
    let r := DecodeRune (b :: rest)
    if r.1 = RuneError ∧ r.2 = 1 then replacementBytes ++ coerceLoop fuel rest
    else (b :: rest).take r.2 ++ coerceLoop fuel ((b :: rest).drop r.2)

/-- The string a JSON document carries for the Go string `s`, and the Go
string read from a JSON string `s`: `s` coerced to valid UTF-8. -/
def coerceUTF8 (s : GoString) : GoString := coerceLoop s.length s

/-- The JSON value of a `string`. -/
def encString (s : GoString) : JsonValue := .str (coerceUTF8 s)

/-- The JSON value of a `bool`. -/
def encBool (b : Bool) : JsonValue := .bool b

/-- The JSON value of an `int`. -/
def encInt (n : Int) : JsonValue := .num n

/-- The JSON value of a pointer: `null` when nil, else that of the pointee. -/
def encPtr {α : Type} (enc : α → JsonValue) : Option α → JsonValue
  | none => .null
  | some v => enc v

/-- The member written for a field without `omitempty`. -/
def member (key : GoString) (v : JsonValue) : JsonObject := [(key, v)]

/-- The member written for a pointer field tagged `omitempty`: none at all
when the pointer is nil. -/
def memberOmitEmpty {α : Type} (key : GoString) (enc : α → JsonValue) : Option α → JsonObject
  | none => []
  | some v => [(key, enc v)]

/-- The call `json.Marshal(p)` for a `Project`: the document. -/
def Project.Marshal (p : Project) : JsonObject :=
  member (lit "id") (encString p.ID) ++
  member (lit "name") (encString p.Name) ++
  member (lit "comment_count") (encInt p.CommentCount) ++
  member (lit "color") (encString p.Color) ++
  member (lit "is_shared") (encBool p.IsShared) ++
  member (lit "order") (encInt p.Order) ++
  member (lit "is_favorite") (encBool p.IsFavorite) ++
  member (lit "is_inbox_project") (encBool p.IsInboxProject) ++
  member (lit "is_team_inbox") (encBool p.IsTeamInbox) ++
  member (lit "view_style") (encString p.ViewStyle) ++
  member (lit "url") (encString p.URL) ++
  member (lit "parent_id") (encString p.ParentID)

/-- The call `json.Marshal(createProject)`: the document and the error, which
is nil for every value of this struct. -/
def CreateProject.Marshal (cp : CreateProject) : JsonObject × Option GoError :=
  (member (lit "name") (encPtr encString cp.Name) ++
   memberOmitEmpty (lit "parent_id") encString cp.ParentID ++
   memberOmitEmpty (lit "color") encString cp.Color ++
   memberOmitEmpty (lit "is_favorite") encBool cp.IsFavorite ++
   memberOmitEmpty (lit "view_style") encString cp.ViewStyle, none)

/-- The call `json.Marshal(updateProject)`: the document and the error, which
is nil for every value of this struct. The field `ID` has no tag. -/
def UpdateProject.Marshal (up : UpdateProject) : JsonObject × Option GoError :=
  (member (lit "ID") (encPtr encString up.ID) ++
   memberOmitEmpty (lit "name") encString up.Name ++
   memberOmitEmpty (lit "color") encString up.Color ++
   memberOmitEmpty (lit "is_favorite") encBool up.IsFavorite ++
   memberOmitEmpty (lit "view_style") encString up.ViewStyle, none)

/-- The fields of `Project`, in the order of declaration. -/
inductive ProjectField where
  | ID | Name | CommentCount | Color | IsShared | Order | IsFavorite
  | IsInboxProject | IsTeamInbox | ViewStyle | URL | ParentID
deriving DecidableEq, Repr

/-- All the fields of `Project`, in the order of declaration. -/
def ProjectField.all : List ProjectField :=
  [.ID, .Name, .CommentCount, .Color, .IsShared, .Order, .IsFavorite,
   .IsInboxProject, .IsTeamInbox, .ViewStyle, .URL, .ParentID]

/-- The name in the `json` tag of each field of `Project`. -/
def ProjectField.jsonName : ProjectField → GoString
  | .ID => lit "id"
  | .Name => lit "name"
  | .CommentCount => lit "comment_count"
  | .Color => lit "color"
  | .IsShared => lit "is_shared"
  | .Order => lit "order"
  | .IsFavorite => lit "is_favorite"
  | .IsInboxProject => lit "is_inbox_project"
  | .IsTeamInbox => lit "is_team_inbox"
  | .ViewStyle => lit "view_style"
  | .URL => lit "url"
  | .ParentID => lit "parent_id"

/-- The field a key of the document is stored into: the field of that very
name, else the first field whose name equals the key under case folding
(`equalFold`, the comparison of the library, a parameter here), else none. -/
def ProjectField.find (equalFold : GoString → GoString → Bool) (key : GoString) :
    Option ProjectField :=
  match ProjectField.all.find? (fun f => f.jsonName == key) with
  | some f => some f
  | none => ProjectField.all.find? (fun f => equalFold f.jsonName key)

/-- The values a Go `int` holds. -/
def intInRange (n : Int) : Bool := -(2 ^ 63) ≤ n ∧ n < 2 ^ 63

/-- A `Project` as Go holds it: its two `int` fields are within 64 bits. -/
def Project.intsInRange (p : Project) : Bool :=
  intInRange p.CommentCount && intInRange p.Order

/-- The error `*json.UnmarshalTypeError` for a value that does not fit the
field; of its message only the name of the field is kept. -/
def unmarshalTypeError (f : ProjectField) : GoError :=
  ⟨lit "json: cannot unmarshal into Go struct field Project." ++ f.jsonName⟩

/-- Storing a JSON string into a `string` field. -/
def storeString (f : ProjectField) (v : JsonValue) (set : GoString → Project) (p : Project) :
    Except GoError Project :=
  match v with
  | .null => .ok p
  | .str s => .ok (set (coerceUTF8 s))
  | _ => .error (unmarshalTypeError f)

/-- Storing a JSON number into an `int` field. -/
def storeInt (f : ProjectField) (v : JsonValue) (set : Int → Project) (p : Project) :
    Except GoError Project :=
  match v with
  | .null => .ok p
  | .num n => if intInRange n then .ok (set n) else .error (unmarshalTypeError f)
  | _ => .error (unmarshalTypeError f)

/-- Storing a JSON boolean into a `bool` field. -/
def storeBool (f : ProjectField) (v : JsonValue) (set : Bool → Project) (p : Project) :
    Except GoError Project :=
  match v with
  | .null => .ok p
  | .bool b => .ok (set b)
  | _ => .error (unmarshalTypeError f)

/-- Storing the value of a member into the field it belongs to: `null` leaves
the field as it is, a value of the wrong kind is an error. -/
def Project.store (p : Project) (f : ProjectField) (v : JsonValue) : Except GoError Project :=
  match f with
  | .ID => storeString f v (fun x => { p with ID := x }) p
  | .Name => storeString f v (fun x => { p with Name := x }) p
  | .CommentCount => storeInt f v (fun x => { p with CommentCount := x }) p
  | .Color => storeString f v (fun x => { p with Color := x }) p
  | .IsShared => storeBool f v (fun x => { p with IsShared := x }) p
  | .Order => storeInt f v (fun x => { p with Order := x }) p
  | .IsFavorite => storeBool f v (fun x => { p with IsFavorite := x }) p
  | .IsInboxProject => storeBool f v (fun x => { p with IsInboxProject := x }) p
  | .IsTeamInbox => storeBool f v (fun x => { p with IsTeamInbox := x }) p
  | .ViewStyle => storeString f v (fun x => { p with ViewStyle := x }) p
  | .URL => storeString f v (fun x => { p with URL := x }) p
  | .ParentID => storeString f v (fun x => { p with ParentID := x }) p

/-- The members of the document, taken in order: a key that matches no field
is skipped, the first error is kept and decoding goes on. -/
def unmarshalMembers (equalFold : GoString → GoString → Bool) :
    JsonObject → Project → Option GoError → Project × Option GoError
  | [], p, err => (p, err)
  | (k, v) :: rest, p, err =>
    match ProjectField.find equalFold k with
    | none => unmarshalMembers equalFold rest p err
    | some f =>
      match p.store f v with
      | .ok q => unmarshalMembers equalFold rest q err
      | .error e => unmarshalMembers equalFold rest p (err <|> some e)

/-- The call `json.Unmarshal(doc, &dest)` for a `Project`, on a document that
is an object: what `dest` holds afterwards, and the error. -/
def Project.Unmarshal (equalFold : GoString → GoString → Bool) (doc : JsonObject)
    (dest : Project) : Project × Option GoError :=
  unmarshalMembers equalFold doc dest none

/-! ## `GetProject` (lines 28-71) -/

/-- The loop of lines 44-50: is there a project with this id in the list? -/
def projectExists (projectId : GoString) : List Project → Bool
  | [] => false
  | project :: rest => if project.ID = projectId then true else projectExists projectId rest

/-- The method `Client.GetProject`. -/
def Client.GetProject {σ : Type} (env : Env σ) (c : Client) (ctx : Context)
    (projectId : GoString) (s : σ) : Run σ (Except GoError Project) :=
  match NewRequest env (lit "GET") (c.BaseURL ++ lit "/projects") none with
  | .error err => ⟨.error err, s, []⟩
  | .ok req =>
    let req := req.WithContext ctx
    let r1 := env.sendProjects s req []
    let ev1 : SendEvent := ⟨req, r1.1.err⟩
    match r1.1.err with
    | some err => ⟨.error err, r1.2, [ev1]⟩
    | none =>
      let allProjects := r1.1.dest
      let found := projectExists projectId allProjects
      if !found then
        ⟨.error (Errorf (lit "unable to find projects with id: " ++ projectId)), r1.2, [ev1]⟩
      else
        match NewRequest env (lit "GET") (c.BaseURL ++ lit "/projects/" ++ projectId) none with
        | .error err => ⟨.error err, r1.2, [ev1]⟩
        | .ok req =>
          let req := req.WithContext ctx
          let r2 := env.sendProject r1.2 req {}
          let ev2 : SendEvent := ⟨req, r2.1.err⟩
          match r2.1.err with
          | some err => ⟨.error err, r2.2, [ev1, ev2]⟩
          | none => ⟨.ok r2.1.dest, r2.2, [ev1, ev2]⟩

/-! ## `CreateProject` (lines 83-107) -/

/-- The method `Client.CreateProject`. -/
def Client.CreateProject {σ : Type} (env : Env σ) (c : Client) (ctx : Context)
    (createProject : CreateProject) (s : σ) : Run σ (Except GoError Project) :=
  match createProject.Marshal with
  | (_, some err) => ⟨.error err, s, []⟩
  | (payload, none) =>
    match NewRequest env (lit "POST") (c.BaseURL ++ lit "/projects") (some payload) with
    | .error err => ⟨.error err, s, []⟩
    | .ok req =>
      let req := req.WithContext ctx
      let r := env.sendProject s req {}
      let ev : SendEvent := ⟨req, r.1.err⟩
      match r.1.err with
      | some err => ⟨.error err, r.2, [ev]⟩
      | none => ⟨.ok r.1.dest, r.2, [ev]⟩

/-! ## `UpdateProject` (lines 117-145) -/

/-- The method `Client.UpdateProject`. -/
def Client.UpdateProject {σ : Type} (env : Env σ) (c : Client) (ctx : Context)
    (updateProject : UpdateProject) (s : σ) : Run σ (Except GoError Project) :=
  let marshalled := updateProject.Marshal
  match updateProject.ID with
  | none => ⟨.error (Errorf (lit "missing project id")), s, []⟩
  | some id =>
    match marshalled with
    | (_, some err) => ⟨.error err, s, []⟩
    | (payload, none) =>
      match NewRequest env (lit "POST") (c.BaseURL ++ lit "/projects/" ++ id) (some payload) with
      | .error err => ⟨.error err, s, []⟩
      | .ok req =>
        let req := req.WithContext ctx
        let r := env.sendProject s req {}
        let ev : SendEvent := ⟨req, r.1.err⟩
        match r.1.err with
        | some err => ⟨.error err, r.2, [ev]⟩
        | none => ⟨.ok r.1.dest, r.2, [ev]⟩

/-! ## `DeleteProject` (lines 147-162) -/

/-- The method `Client.DeleteProject`: status code, body and error. -/
def Client.DeleteProject {σ : Type} (env : Env σ) (c : Client) (ctx : Context)
    (projectId : GoString) (s : σ) : Run σ (Int × GoString × Option GoError) :=
  match NewRequest env (lit "DELETE") (c.BaseURL ++ lit "/projects/" ++ projectId) none with
  | .error err => ⟨(0, [], some err), s, []⟩
  | .ok req =>
    let req := req.WithContext ctx
    let r := env.sendNil s req
    let ev : SendEvent := ⟨req, r.1.err⟩
    match r.1.err with
    | some err => ⟨(-1, [], some err), r.2, [ev]⟩
    | none => ⟨(r.1.statusCode, r.1.body, r.1.err), r.2, [ev]⟩

/-! ## The resource: `Create` (`resource_projects.go`, lines 92-121) -/

/-- The framework's `types.String`: null, unknown, or a known string. -/
inductive TfString where
  | null
  | unknown
  | value (s : GoString)
deriving DecidableEq, Repr

/-- The framework's `types.StringValue`. -/
def StringValue (s : GoString) : TfString := .value s

/-- The framework's `ValueStringPointer`: nil for null, a pointer to the
known string otherwise, which for unknown is the empty string. -/
def TfString.ValueStringPointer : TfString → Option GoString
  | .null => none
  | .unknown => some []
  | .value s => some s

/-- The struct `ProjectsResourceModel` (lines 36-40). -/
structure ProjectsResourceModel where
  Name : TfString
  Id : TfString
  Color : TfString
deriving DecidableEq, Repr

/-- The severity of a diagnostic of the framework. -/
inductive Severity where
  | Error
  | Warning
deriving DecidableEq, Repr

/-- A diagnostic of the framework. -/
structure Diagnostic where
  severity : Severity
  summary : GoString
  detail : GoString
deriving DecidableEq, Repr

/-- The framework's `Diagnostics.Append`: a diagnostic already in the list is
not added again. -/
def diagsAppend (diags : List Diagnostic) : List Diagnostic → List Diagnostic
  | [] => diags
  | d :: rest => if d ∈ diags then diagsAppend diags rest else diagsAppend (diags ++ [d]) rest

/-- The framework's `Diagnostics.AddError`. -/
def diagsAddError (diags : List Diagnostic) (summary detail : GoString) : List Diagnostic :=
  diagsAppend diags [⟨.Error, summary, detail⟩]

/-- The framework's `Diagnostics.HasError`. -/
def diagsHasError (diags : List Diagnostic) : Bool :=
  diags.any (fun d => d.severity = .Error)

/-- The `resource.CreateRequest`, through the one call made on it:
`req.Plan.Get(ctx, &data)` leaves `planData` in `data` and returns
`planDiags`. -/
structure CreateRequest where
  planData : ProjectsResourceModel
  planDiags : List Diagnostic

/-- The `resource.CreateResponse`: its diagnostics, and in `State` the model
handed to `resp.State.Set`, `none` as long as it has not been called. -/
structure CreateResponse where
  Diagnostics : List Diagnostic
  State : Option ProjectsResourceModel
deriving DecidableEq, Repr

/-- The struct `ProjectsResource`, once `Configure` has stored the client. -/
structure ProjectsResource where
  client : Client

/-- Lines 101-102 of `Create`: the request built from the planned model. -/
def ProjectsResource.createPayload (data : ProjectsResourceModel) : CreateProject :=
  let payload : CreateProject := {}
  { payload with Name := data.Name.ValueStringPointer }

/-- The method `ProjectsResource.Create`. `stateSetDiags` gives the
diagnostics `resp.State.Set` returns. -/
def ProjectsResource.Create {σ : Type} (env : Env σ)
    (stateSetDiags : ProjectsResourceModel → List Diagnostic) (r : ProjectsResource)
    (ctx : Context) (req : CreateRequest) (resp : CreateResponse) (s : σ) :
    Run σ CreateResponse :=
  let data := req.planData
  let resp := { resp with Diagnostics := diagsAppend resp.Diagnostics req.planDiags }
  if diagsHasError resp.Diagnostics then ⟨resp, s, []⟩
  else
    let payload := ProjectsResource.createPayload data
    let run := r.client.CreateProject env ctx payload s
    match run.ret with
    | .error err =>
      let diags := diagsAddError resp.Diagnostics (lit "Client Error")
        (lit "Unable to create project, got error: " ++ err.msg)
      ⟨{ resp with Diagnostics := diags }, run.server, run.sent⟩
    | .ok response =>
      let data := { data with Id := StringValue response.ID }
      let data := { data with Name := StringValue response.Name }
      let data := { data with Color := StringValue response.Color }
      let diags := diagsAppend resp.Diagnostics (stateSetDiags data)
      ⟨{ resp with State := some data, Diagnostics := diags }, run.server, run.sent⟩

/-! ## Requests by name, and example services -/

/-- The request `GET {base}/projects` under the context `ctx`. -/
def listRequest (c : Client) (ctx : Context) : Request :=
  ⟨lit "GET", c.BaseURL ++ lit "/projects", none, some ctx⟩

/-- The request `GET {base}/projects/{id}` under the context `ctx`. -/
def getRequest (c : Client) (ctx : Context) (projectId : GoString) : Request :=
  ⟨lit "GET", c.BaseURL ++ lit "/projects/" ++ projectId, none, some ctx⟩

/-- The request `POST {base}/projects` with the document `payload`. -/
def createRequest (c : Client) (ctx : Context) (payload : JsonObject) : Request :=
  ⟨lit "POST", c.BaseURL ++ lit "/projects", some payload, some ctx⟩

/-- The request `POST {base}/projects/{id}` with the document `payload`. -/
def updateRequest (c : Client) (ctx : Context) (projectId : GoString) (payload : JsonObject) :
    Request :=
  ⟨lit "POST", c.BaseURL ++ lit "/projects/" ++ projectId, some payload, some ctx⟩

/-- The request `DELETE {base}/projects/{id}` under the context `ctx`. -/
def deleteRequest (c : Client) (ctx : Context) (projectId : GoString) : Request :=
  ⟨lit "DELETE", c.BaseURL ++ lit "/projects/" ++ projectId, none, some ctx⟩

/-- An example service: every request can be built, and `sendRequest` gives
the same three answers whatever the request, one per type of destination.
The state counts the requests served. -/
def cannedEnv (listing : SendResult (List Project)) (single : SendResult Project)
    (bare : SendResult Unit) : Env Nat where
  newRequestErr := fun _ _ => none
  sendProjects := fun n _ _ => (listing, n + 1)
  sendProject := fun n _ _ => (single, n + 1)
  sendNil := fun n _ => (bare, n + 1)

/-- An example client. -/
def exampleClient : Client := ⟨lit "https://api.todoist.com/rest/v2"⟩

/-- The decoding of the listing `[{"id":"1","name":"A"}]`. -/
def exampleListing : List Project :=
  [(Project.Unmarshal (fun a b => a == b)
      [(lit "id", .str (lit "1")), (lit "name", .str (lit "A"))] {}).1]

/-- The decoding of the document `{"id":"1","name":"A","color":"charcoal"}`. -/
def exampleSingle : Project :=
  (Project.Unmarshal (fun a b => a == b)
    [(lit "id", .str (lit "1")), (lit "name", .str (lit "A")),
     (lit "color", .str (lit "charcoal"))] {}).1

/-- The example service of the end-to-end scenario: it answers the listing
with `exampleListing` and the single read with `exampleSingle`. -/
def exampleEnv : Env Nat :=
  cannedEnv ⟨200, [], none, exampleListing⟩ ⟨200, [], none, exampleSingle⟩ ⟨204, [], none, ()⟩

/-- An example service whose every send fails with "connection refused",
while `sendRequest` still hands back a status code and a body. -/
def failingEnv : Env Nat :=
  cannedEnv ⟨502, lit "bad gateway", some ⟨lit "connection refused"⟩, exampleListing⟩
    ⟨502, lit "bad gateway", some ⟨lit "connection refused"⟩, exampleSingle⟩
    ⟨502, lit "bad gateway", some ⟨lit "connection refused"⟩, ()⟩

/-! ## The error policy, as a property of a run -/

/-- The policy "no error is swallowed or retried" for one run: a send that
returned an error is the last send of the run, the sends before it returned
none, and the run returns that very error and no project; and a run that
returns a project made no send that returned an error. -/
def Run.PropagatesSendErrors {σ : Type} (run : Run σ (Except GoError Project)) : Prop :=
  (∀ ev ∈ run.sent, ∀ e, ev.err = some e →
      run.ret = .error e ∧ run.sent.getLast? = some ev ∧
        ∀ before ∈ run.sent.dropLast, before.err = none) ∧
    (∀ p, run.ret = .ok p → ∀ ev ∈ run.sent, ev.err = none)

/-! ## Theorems -/

/-- The loop of `GetProject` finds a project exactly when one of the list has
the id. -/
theorem projectExists_iff (projectId : GoString) (ps : List Project) :
    projectExists projectId ps = true ↔ ∃ p ∈ ps, p.ID = projectId := by
  induction ps with
  | nil => simp [projectExists]
  | cons p rest ih =>
    by_cases h : p.ID = projectId
    · simp [projectExists, h]
    · simp [projectExists, h, ih]

/-- C1: when the listing is sent and decodes, without error, to a list in
which no project has the requested id (the empty list included), `GetProject`
returns no project and the error "unable to find projects with id: {id}",
whose message contains the id; the one request it has sent is
`GET {base}/projects`, and no request to `{base}/projects/{id}` is sent. -/
theorem getProject_absent_id_not_found {σ : Type} (env : Env σ) (c : Client) (ctx : Context)
    (projectId : GoString) (s : σ)
    (hbuild : env.newRequestErr (lit "GET") (c.BaseURL ++ lit "/projects") = none)
    (hsend : (env.sendProjects s (listRequest c ctx) []).1.err = none)
    (habsent : ∀ p ∈ (env.sendProjects s (listRequest c ctx) []).1.dest, p.ID ≠ projectId) :
    (c.GetProject env ctx projectId s).ret
        = .error (Errorf (lit "unable to find projects with id: " ++ projectId)) ∧
      projectId <:+: (Errorf (lit "unable to find projects with id: " ++ projectId)).msg ∧
      (c.GetProject env ctx projectId s).sent = [⟨listRequest c ctx, none⟩] ∧
      ∀ ev ∈ (c.GetProject env ctx projectId s).sent,
        ev.req.url ≠ c.BaseURL ++ lit "/projects/" ++ projectId := by
  have hnot : projectExists projectId (env.sendProjects s (listRequest c ctx) []).1.dest = false := by
    rw [Bool.eq_false_iff]
    intro h
    obtain ⟨p, hp, hid⟩ := (projectExists_iff _ _).1 h
    exact habsent p hp hid
  have hlist : Request.WithContext ⟨lit "GET", c.BaseURL ++ lit "/projects", none, none⟩ ctx
      = listRequest c ctx := rfl
  have hrun : c.GetProject env ctx projectId s
      = ⟨.error (Errorf (lit "unable to find projects with id: " ++ projectId)),
          (env.sendProjects s (listRequest c ctx) []).2, [⟨listRequest c ctx, none⟩]⟩ := by
    simp only [Client.GetProject, NewRequest, hbuild, hlist, hsend, hnot]
    rfl
  rw [hrun]
  refine ⟨rfl, ?_, rfl, ?_⟩
  · exact List.IsSuffix.isInfix (List.suffix_append _ _)
  · intro ev hev
    simp only [List.mem_singleton] at hev
    subst hev
    intro hurl
    have hlen := congrArg List.length hurl
    have h1 : (lit "/projects").length = 9 := by decide
    have h2 : (lit "/projects/").length = 10 := by decide
    simp only [listRequest, List.length_append, h1, h2] at hlen
    omega

/-- Witness of C1 on the example service: reading the id "2", which the
listing `[{"id":"1","name":"A"}]` does not hold. -/
theorem getProject_absent_id_not_found_witness :
    (exampleClient.GetProject exampleEnv ⟨7⟩ (lit "2") 0).ret
        = .error ⟨lit "unable to find projects with id: 2"⟩ ∧
      lit "2" <:+: lit "unable to find projects with id: 2" ∧
      (exampleClient.GetProject exampleEnv ⟨7⟩ (lit "2") 0).sent
        = [⟨listRequest exampleClient ⟨7⟩, none⟩] :=
  have h := getProject_absent_id_not_found exampleEnv exampleClient ⟨7⟩ (lit "2") 0
    (by decide) (by decide) (by decide)
  ⟨h.1, h.2.1, h.2.2.1⟩

/-- C2: when the requested id is the ID of a project of the decoded listing
and both sends succeed, `GetProject` sends exactly two requests, first
`GET {base}/projects` and then `GET {base}/projects/{id}`, and returns, with
a nil error, the project decoded from the second answer. -/
theorem getProject_present_id_two_requests {σ : Type} (env : Env σ) (c : Client)
    (ctx : Context) (projectId : GoString) (s : σ)
    (hbuild1 : env.newRequestErr (lit "GET") (c.BaseURL ++ lit "/projects") = none)
    (hsend1 : (env.sendProjects s (listRequest c ctx) []).1.err = none)
    (hpresent : ∃ p ∈ (env.sendProjects s (listRequest c ctx) []).1.dest, p.ID = projectId)
    (hbuild2 : env.newRequestErr (lit "GET") (c.BaseURL ++ lit "/projects/" ++ projectId) = none)
    (hsend2 : (env.sendProject (env.sendProjects s (listRequest c ctx) []).2
        (getRequest c ctx projectId) {}).1.err = none) :
    (c.GetProject env ctx projectId s).ret
        = .ok (env.sendProject (env.sendProjects s (listRequest c ctx) []).2
            (getRequest c ctx projectId) {}).1.dest ∧
      (c.GetProject env ctx projectId s).sent
        = [⟨listRequest c ctx, none⟩, ⟨getRequest c ctx projectId, none⟩] := by
  have hyes : projectExists projectId (env.sendProjects s (listRequest c ctx) []).1.dest = true :=
    (projectExists_iff _ _).2 hpresent
  have hlist : Request.WithContext ⟨lit "GET", c.BaseURL ++ lit "/projects", none, none⟩ ctx
      = listRequest c ctx := rfl
  have hget : Request.WithContext
      ⟨lit "GET", c.BaseURL ++ lit "/projects/" ++ projectId, none, none⟩ ctx
      = getRequest c ctx projectId := rfl
  simp only [Client.GetProject, NewRequest, hbuild1, hlist, hsend1, hyes, hbuild2, hget, hsend2]
  exact ⟨rfl, rfl⟩

/-- Witness of C2, the end-to-end scenario of the specification: the listing
`[{"id":"1","name":"A"}]` and the single answer
`{"id":"1","name":"A","color":"charcoal"}` give a project with name "A" and
colour "charcoal", the colour being that of the second answer and not the
empty one of the listing entry. -/
theorem getProject_present_id_two_requests_witness :
    (exampleClient.GetProject exampleEnv ⟨7⟩ (lit "1") 0).ret
        = .ok { ID := lit "1", Name := lit "A", Color := lit "charcoal" } ∧
      (exampleClient.GetProject exampleEnv ⟨7⟩ (lit "1") 0).sent
        = [⟨listRequest exampleClient ⟨7⟩, none⟩, ⟨getRequest exampleClient ⟨7⟩ (lit "1"), none⟩] ∧
      exampleListing = [{ ID := lit "1", Name := lit "A", Color := [] }] :=
  have h := getProject_present_id_two_requests exampleEnv exampleClient ⟨7⟩ (lit "1") 0
    (by decide) (by decide) (by decide) (by decide) (by decide)
  ⟨h.1, h.2, by decide⟩

/-- C3: an `UpdateProject` request whose ID is nil, whatever its other
fields, makes `UpdateProject` return no project and the error "missing
project id" without a single call of `sendRequest`; the service is left as
it was. -/
theorem updateProject_nil_id_no_request {σ : Type} (env : Env σ) (c : Client) (ctx : Context)
    (updateProject : UpdateProject) (s : σ) (hid : updateProject.ID = none) :
    (c.UpdateProject env ctx updateProject s).ret = .error (Errorf (lit "missing project id")) ∧
      (c.UpdateProject env ctx updateProject s).sent = [] ∧
      (c.UpdateProject env ctx updateProject s).server = s := by
  have hrun : c.UpdateProject env ctx updateProject s
      = ⟨.error (Errorf (lit "missing project id")), s, []⟩ := by
    simp only [Client.UpdateProject, hid]
  rw [hrun]
  exact ⟨rfl, rfl, rfl⟩

/-- Witness of C3: an update that sets a name and a colour but no id. -/
theorem updateProject_nil_id_no_request_witness :
    (exampleClient.UpdateProject exampleEnv ⟨7⟩
        { Name := some (lit "A"), Color := some (lit "red") } 0).ret
        = .error ⟨lit "missing project id"⟩ ∧
      (exampleClient.UpdateProject exampleEnv ⟨7⟩
        { Name := some (lit "A"), Color := some (lit "red") } 0).sent = [] :=
  have h := updateProject_nil_id_no_request exampleEnv exampleClient ⟨7⟩
    { Name := some (lit "A"), Color := some (lit "red") } 0 rfl
  ⟨h.1, h.2.1⟩

/-- C6: when the DELETE request can be built and `sendRequest` returns an
error, `DeleteProject` returns the status code -1, the empty body and that
very error, whatever status code and body `sendRequest` returned with it. -/
theorem deleteProject_send_error_sentinel {σ : Type} (env : Env σ) (c : Client)
    (ctx : Context) (projectId : GoString) (s : σ) (e : GoError)
    (hbuild : env.newRequestErr (lit "DELETE") (c.BaseURL ++ lit "/projects/" ++ projectId)
      = none)
    (hsend : (env.sendNil s (deleteRequest c ctx projectId)).1.err = some e) :
    (c.DeleteProject env ctx projectId s).ret = (-1, [], some e) ∧
      (c.DeleteProject env ctx projectId s).sent = [⟨deleteRequest c ctx projectId, some e⟩] := by
  have hdel : Request.WithContext
      ⟨lit "DELETE", c.BaseURL ++ lit "/projects/" ++ projectId, none, none⟩ ctx
      = deleteRequest c ctx projectId := rfl
  simp only [Client.DeleteProject, NewRequest, hbuild, hdel, hsend, and_self]

/-- Witness of C6: the failing service hands back 502 and a body with its
error; `DeleteProject` returns -1 and the empty body. -/
theorem deleteProject_send_error_sentinel_witness :
    (failingEnv.sendNil 0 (deleteRequest exampleClient ⟨7⟩ (lit "1"))).1.statusCode = 502 ∧
      (exampleClient.DeleteProject failingEnv ⟨7⟩ (lit "1") 0).ret
        = (-1, [], some ⟨lit "connection refused"⟩) :=
  ⟨rfl, (deleteProject_send_error_sentinel failingEnv exampleClient ⟨7⟩ (lit "1") 0
    ⟨lit "connection refused"⟩ (by decide) (by decide)).1⟩

/-- The keys of the document of a `CreateProject`: "name" is among them, and
each of the four other keys is among them exactly when its field is set. -/
theorem createProject_keys_contains (cp : CreateProject) :
    cp.Marshal.1.keys.contains (lit "name") = true ∧
      cp.Marshal.1.keys.contains (lit "parent_id") = cp.ParentID.isSome ∧
      cp.Marshal.1.keys.contains (lit "color") = cp.Color.isSome ∧
      cp.Marshal.1.keys.contains (lit "is_favorite") = cp.IsFavorite.isSome ∧
      cp.Marshal.1.keys.contains (lit "view_style") = cp.ViewStyle.isSome := by
  rcases cp with ⟨n, p, c, f, v⟩
  cases n <;> cases p <;> cases c <;> cases f <;> cases v <;> exact ⟨rfl, rfl, rfl, rfl, rfl⟩

/-- The values of the document of a `CreateProject`, key by key. -/
theorem createProject_get (cp : CreateProject) :
    cp.Marshal.1.get? (lit "name") = some (encPtr encString cp.Name) ∧
      cp.Marshal.1.get? (lit "parent_id") = cp.ParentID.map encString ∧
      cp.Marshal.1.get? (lit "color") = cp.Color.map encString ∧
      cp.Marshal.1.get? (lit "is_favorite") = cp.IsFavorite.map encBool ∧
      cp.Marshal.1.get? (lit "view_style") = cp.ViewStyle.map encString := by
  rcases cp with ⟨n, p, c, f, v⟩
  cases n <;> cases p <;> cases c <;> cases f <;> cases v <;> exact ⟨rfl, rfl, rfl, rfl, rfl⟩

/-- A key is among the keys of a document exactly when `contains` says so,
and a pointer is set exactly when `isSome` says so. -/
theorem mem_keys_iff_of_contains {keys : List GoString} {k : GoString} {α : Type}
    {o : Option α} (h : keys.contains k = o.isSome) : k ∈ keys ↔ o ≠ none := by
  rw [← Option.isSome_iff_ne_none, ← h]
  exact List.elem_iff.symm

/-- What `CreateProject` does once its request is built: one send, whose
outcome it hands on. -/
theorem createProject_run {σ : Type} (env : Env σ) (c : Client) (ctx : Context)
    (cp : CreateProject) (s : σ)
    (hbuild : env.newRequestErr (lit "POST") (c.BaseURL ++ lit "/projects") = none) :
    c.CreateProject env ctx cp s
      = ⟨match (env.sendProject s (createRequest c ctx cp.Marshal.1) {}).1.err with
          | some err => .error err
          | none => .ok (env.sendProject s (createRequest c ctx cp.Marshal.1) {}).1.dest,
         (env.sendProject s (createRequest c ctx cp.Marshal.1) {}).2,
         [⟨createRequest c ctx cp.Marshal.1,
           (env.sendProject s (createRequest c ctx cp.Marshal.1) {}).1.err⟩]⟩ := by
  have hreq : Request.WithContext
      ⟨lit "POST", c.BaseURL ++ lit "/projects", some cp.Marshal.1, none⟩ ctx
      = createRequest c ctx cp.Marshal.1 := rfl
  have hm : cp.Marshal = (cp.Marshal.1, none) := rfl
  unfold Client.CreateProject
  rw [hm]
  simp only [NewRequest, hbuild, hreq]
  cases (env.sendProject s (createRequest c ctx cp.Marshal.1) {}).1.err <;> rfl

/-- What `CreateProject` does when its request cannot be built: nothing is
sent and the error of `http.NewRequest` is returned. -/
theorem createProject_run_unbuilt {σ : Type} (env : Env σ) (c : Client) (ctx : Context)
    (cp : CreateProject) (s : σ) (e : GoError)
    (hbuild : env.newRequestErr (lit "POST") (c.BaseURL ++ lit "/projects") = some e) :
    c.CreateProject env ctx cp s = ⟨.error e, s, []⟩ := by
  have hm : cp.Marshal = (cp.Marshal.1, none) := rfl
  unfold Client.CreateProject
  rw [hm]
  simp only [NewRequest, hbuild]

/-- The document of an `UpdateProject`, key by key: the member "ID" is always
there, with the id or with null, and each of the four tagged fields has its
member exactly when it is set. -/
theorem updateProject_get (up : UpdateProject) :
    up.Marshal.1.get? (lit "ID") = some (encPtr encString up.ID) ∧
      up.Marshal.1.get? (lit "name") = up.Name.map encString ∧
      up.Marshal.1.get? (lit "color") = up.Color.map encString ∧
      up.Marshal.1.get? (lit "is_favorite") = up.IsFavorite.map encBool ∧
      up.Marshal.1.get? (lit "view_style") = up.ViewStyle.map encString := by
  rcases up with ⟨i, n, c, f, v⟩
  cases i <;> cases n <;> cases c <;> cases f <;> cases v <;> exact ⟨rfl, rfl, rfl, rfl, rfl⟩

/-- C5, the code at a request with a set id and a set name: the body of the
POST to `{base}/projects/1` has, before the member "name", a member "ID"
with the id, because the field `ID` of the struct carries no `json` tag. -/
theorem updateProject_body_carries_id :
    (exampleClient.UpdateProject exampleEnv ⟨7⟩
        { ID := some (lit "1"), Name := some (lit "A") } 0).sent
        = [⟨updateRequest exampleClient ⟨7⟩ (lit "1")
            [(lit "ID", .str (lit "1")), (lit "name", .str (lit "A"))], none⟩] ∧
      lit "ID" ∈ (UpdateProject.Marshal { ID := some (lit "1"), Name := some (lit "A") }).1.keys := by
  decide

/-- C8 fails on the code: on the example service, whose send succeeds,
`CreateProject` with an unset name returns a project and no error. -/
theorem createProject_nil_name_can_succeed :
    ({} : CreateProject).Name = none ∧
      (exampleClient.CreateProject exampleEnv ⟨7⟩ {} 0).ret = .ok exampleSingle ∧
      (exampleClient.CreateProject exampleEnv ⟨7⟩ {} 0).sent
        = [⟨createRequest exampleClient ⟨7⟩ [(lit "name", .null)], none⟩] :=
  ⟨rfl, rfl, by decide⟩

/-- C8 as amended: `CreateProject` does not check the name. With the name
unset the document carries "name" with the value null; when the request
cannot be built nothing is sent and that error is returned; when it can, the
POST to `{base}/projects` is sent, and `CreateProject` returns an error and
no project exactly when the send returns an error, that error, and returns
the project decoded by the send otherwise. -/
theorem createProject_nil_name_outcome {σ : Type} (env : Env σ) (c : Client) (ctx : Context)
    (cp : CreateProject) (s : σ) (hname : cp.Name = none) :
    cp.Marshal.1.get? (lit "name") = some .null ∧
      (∀ e, env.newRequestErr (lit "POST") (c.BaseURL ++ lit "/projects") = some e →
        (c.CreateProject env ctx cp s).ret = .error e ∧ (c.CreateProject env ctx cp s).sent = []) ∧
      (env.newRequestErr (lit "POST") (c.BaseURL ++ lit "/projects") = none →
        (c.CreateProject env ctx cp s).sent
            = [⟨createRequest c ctx cp.Marshal.1,
                (env.sendProject s (createRequest c ctx cp.Marshal.1) {}).1.err⟩] ∧
          (∀ e, (env.sendProject s (createRequest c ctx cp.Marshal.1) {}).1.err = some e →
            (c.CreateProject env ctx cp s).ret = .error e) ∧
          ((env.sendProject s (createRequest c ctx cp.Marshal.1) {}).1.err = none →
            (c.CreateProject env ctx cp s).ret
              = .ok (env.sendProject s (createRequest c ctx cp.Marshal.1) {}).1.dest)) := by
  refine ⟨?_, ?_, ?_⟩
  · rw [(createProject_get cp).1, hname]; rfl
  · intro e hb
    rw [createProject_run_unbuilt env c ctx cp s e hb]
    exact ⟨rfl, rfl⟩
  · intro hb
    rw [createProject_run env c ctx cp s hb]
    refine ⟨rfl, ?_, ?_⟩
    · intro e he
      simp only [he]
    · intro he
      simp only [he]

/-- Witness of amended C8: with an unset name, the failing service makes
`CreateProject` fail with the error of the send, after the POST was sent. -/
theorem createProject_nil_name_outcome_witness :
    (exampleClient.CreateProject failingEnv ⟨7⟩ {} 0).ret = .error ⟨lit "connection refused"⟩ ∧
      (exampleClient.CreateProject exampleEnv ⟨7⟩ {} 0).ret = .ok exampleSingle :=
  ⟨((createProject_nil_name_outcome failingEnv exampleClient ⟨7⟩ {} 0 rfl).2.2 (by decide)).2.1
      ⟨lit "connection refused"⟩ (by decide),
   ((createProject_nil_name_outcome exampleEnv exampleClient ⟨7⟩ {} 0 rfl).2.2 (by decide)).2.2
      (by decide)⟩

/-! ### The runs of the operations, case by case -/

/-- A run that sent nothing and failed keeps the error policy. -/
theorem propagates_of_nothing_sent {σ : Type} (e : GoError) (s : σ) :
    (⟨.error e, s, []⟩ : Run σ (Except GoError Project)).PropagatesSendErrors := by
  simp [Run.PropagatesSendErrors]

/-- A run that failed by itself after one send that succeeded keeps the
error policy. -/
theorem propagates_of_error_after_success {σ : Type} (e : GoError) (s : σ) (req : Request) :
    (⟨.error e, s, [⟨req, none⟩]⟩ : Run σ (Except GoError Project)).PropagatesSendErrors := by
  simp [Run.PropagatesSendErrors]

/-- A run that hands on the outcome of its last send, the sends before it
having succeeded, keeps the error policy. -/
theorem propagates_of_last_send {σ : Type} (s : σ) (before : List SendEvent) (req : Request)
    (err : Option GoError) (p : Project) (hbefore : ∀ ev ∈ before, ev.err = none) :
    (⟨match err with | some e => .error e | none => .ok p, s, before ++ [⟨req, err⟩]⟩ :
      Run σ (Except GoError Project)).PropagatesSendErrors := by
  constructor
  · intro ev hev e he
    simp only [List.mem_append, List.mem_singleton] at hev
    rcases hev with hev | rfl
    · rw [hbefore ev hev] at he; cases he
    · simp only at he
      subst he
      simpa using hbefore
  · intro q hq ev hev
    cases err with
    | some e => simp at hq
    | none =>
      simp only [List.mem_append, List.mem_singleton] at hev
      rcases hev with hev | rfl
      · exact hbefore ev hev
      · rfl

/-- The run of `GetProject` when the listing request cannot be built. -/
theorem getProject_run_unbuilt {σ : Type} (env : Env σ) (c : Client) (ctx : Context)
    (projectId : GoString) (s : σ) (e : GoError)
    (hbuild : env.newRequestErr (lit "GET") (c.BaseURL ++ lit "/projects") = some e) :
    c.GetProject env ctx projectId s = ⟨.error e, s, []⟩ := by
  simp only [Client.GetProject, NewRequest, hbuild]

/-- The run of `GetProject` when the listing request can be built, by the
outcome of the listing, of the search, of the construction of the second
request and of the second send. -/
theorem getProject_run_listing {σ : Type} (env : Env σ) (c : Client) (ctx : Context)
    (projectId : GoString) (s : σ)
    (hbuild : env.newRequestErr (lit "GET") (c.BaseURL ++ lit "/projects") = none) :
    c.GetProject env ctx projectId s =
      match (env.sendProjects s (listRequest c ctx) []).1.err with
      | some e =>
        ⟨.error e, (env.sendProjects s (listRequest c ctx) []).2, [⟨listRequest c ctx, some e⟩]⟩
      | none =>
        if projectExists projectId (env.sendProjects s (listRequest c ctx) []).1.dest then
          match env.newRequestErr (lit "GET") (c.BaseURL ++ lit "/projects/" ++ projectId) with
          | some e =>
            ⟨.error e, (env.sendProjects s (listRequest c ctx) []).2, [⟨listRequest c ctx, none⟩]⟩
          | none =>
            ⟨match (env.sendProject (env.sendProjects s (listRequest c ctx) []).2
                  (getRequest c ctx projectId) {}).1.err with
              | some e => .error e
              | none => .ok (env.sendProject (env.sendProjects s (listRequest c ctx) []).2
                  (getRequest c ctx projectId) {}).1.dest,
             (env.sendProject (env.sendProjects s (listRequest c ctx) []).2
                  (getRequest c ctx projectId) {}).2,
             [⟨listRequest c ctx, none⟩, ⟨getRequest c ctx projectId,
                (env.sendProject (env.sendProjects s (listRequest c ctx) []).2
                  (getRequest c ctx projectId) {}).1.err⟩]⟩
        else
          ⟨.error (Errorf (lit "unable to find projects with id: " ++ projectId)),
            (env.sendProjects s (listRequest c ctx) []).2, [⟨listRequest c ctx, none⟩]⟩ := by
  have hlist : Request.WithContext ⟨lit "GET", c.BaseURL ++ lit "/projects", none, none⟩ ctx
      = listRequest c ctx := rfl
  have hget : Request.WithContext
      ⟨lit "GET", c.BaseURL ++ lit "/projects/" ++ projectId, none, none⟩ ctx
      = getRequest c ctx projectId := rfl
  simp only [Client.GetProject, NewRequest, hbuild, hlist, hget]
  cases h1 : (env.sendProjects s (listRequest c ctx) []).1.err with
  | some e => rfl
  | none =>
    simp only []
    cases hx : projectExists projectId (env.sendProjects s (listRequest c ctx) []).1.dest with
    | false => rfl
    | true =>
      simp only [Bool.not_true, Bool.false_eq_true, if_false, if_true]
      cases env.newRequestErr (lit "GET") (c.BaseURL ++ lit "/projects/" ++ projectId) with
      | some e => rfl
      | none =>
        simp only [hget]
        cases (env.sendProject (env.sendProjects s (listRequest c ctx) []).2
                  (getRequest c ctx projectId) {}).1.err <;> rfl

/-- The run of `UpdateProject` without an id. -/
theorem updateProject_run_nil_id {σ : Type} (env : Env σ) (c : Client) (ctx : Context)
    (up : UpdateProject) (s : σ) (hid : up.ID = none) :
    c.UpdateProject env ctx up s = ⟨.error (Errorf (lit "missing project id")), s, []⟩ := by
  simp only [Client.UpdateProject, hid]

/-- The run of `UpdateProject` when its request cannot be built. -/
theorem updateProject_run_unbuilt {σ : Type} (env : Env σ) (c : Client) (ctx : Context)
    (up : UpdateProject) (s : σ) (id : GoString) (e : GoError) (hid : up.ID = some id)
    (hbuild : env.newRequestErr (lit "POST") (c.BaseURL ++ lit "/projects/" ++ id) = some e) :
    c.UpdateProject env ctx up s = ⟨.error e, s, []⟩ := by
  have hm : up.Marshal = (up.Marshal.1, none) := rfl
  unfold Client.UpdateProject
  rw [hm]
  simp only [hid, NewRequest, hbuild]

/-- The run of `UpdateProject` once its request is built: one send, whose
outcome it hands on. -/
theorem updateProject_run {σ : Type} (env : Env σ) (c : Client) (ctx : Context)
    (up : UpdateProject) (s : σ) (id : GoString) (hid : up.ID = some id)
    (hbuild : env.newRequestErr (lit "POST") (c.BaseURL ++ lit "/projects/" ++ id) = none) :
    c.UpdateProject env ctx up s
      = ⟨match (env.sendProject s (updateRequest c ctx id up.Marshal.1) {}).1.err with
          | some err => .error err
          | none => .ok (env.sendProject s (updateRequest c ctx id up.Marshal.1) {}).1.dest,
         (env.sendProject s (updateRequest c ctx id up.Marshal.1) {}).2,
         [⟨updateRequest c ctx id up.Marshal.1,
           (env.sendProject s (updateRequest c ctx id up.Marshal.1) {}).1.err⟩]⟩ := by
  have hreq : Request.WithContext
      ⟨lit "POST", c.BaseURL ++ lit "/projects/" ++ id, some up.Marshal.1, none⟩ ctx
      = updateRequest c ctx id up.Marshal.1 := rfl
  have hm : up.Marshal = (up.Marshal.1, none) := rfl
  unfold Client.UpdateProject
  rw [hm]
  simp only [hid, NewRequest, hbuild, hreq]
  cases (env.sendProject s (updateRequest c ctx id up.Marshal.1) {}).1.err <;> rfl

/-- Every run of `GetProject` keeps the error policy. -/
theorem getProject_propagates {σ : Type} (env : Env σ) (c : Client) (ctx : Context)
    (projectId : GoString) (s : σ) : (c.GetProject env ctx projectId s).PropagatesSendErrors := by
  cases hb : env.newRequestErr (lit "GET") (c.BaseURL ++ lit "/projects") with
  | some e =>
    rw [getProject_run_unbuilt env c ctx projectId s e hb]
    exact propagates_of_nothing_sent _ _
  | none =>
    rw [getProject_run_listing env c ctx projectId s hb]
    cases (env.sendProjects s (listRequest c ctx) []).1.err with
    | some e => exact propagates_of_last_send _ [] _ (some e) {} (by simp)
    | none =>
      simp only []
      split
      · cases env.newRequestErr (lit "GET") (c.BaseURL ++ lit "/projects/" ++ projectId) with
        | some e => exact propagates_of_error_after_success _ _ _
        | none => exact propagates_of_last_send _ [⟨listRequest c ctx, none⟩] _ _ _ (by simp)
      · exact propagates_of_error_after_success _ _ _

/-- Every run of `CreateProject` keeps the error policy. -/
theorem createProject_propagates {σ : Type} (env : Env σ) (c : Client) (ctx : Context)
    (cp : CreateProject) (s : σ) : (c.CreateProject env ctx cp s).PropagatesSendErrors := by
  cases hb : env.newRequestErr (lit "POST") (c.BaseURL ++ lit "/projects") with
  | some e =>
    rw [createProject_run_unbuilt env c ctx cp s e hb]
    exact propagates_of_nothing_sent _ _
  | none =>
    rw [createProject_run env c ctx cp s hb]
    exact propagates_of_last_send _ [] _ _ _ (by simp)

/-- Every run of `UpdateProject` keeps the error policy. -/
theorem updateProject_propagates {σ : Type} (env : Env σ) (c : Client) (ctx : Context)
    (up : UpdateProject) (s : σ) : (c.UpdateProject env ctx up s).PropagatesSendErrors := by
  cases hid : up.ID with
  | none =>
    rw [updateProject_run_nil_id env c ctx up s hid]
    exact propagates_of_nothing_sent _ _
  | some id =>
    cases hb : env.newRequestErr (lit "POST") (c.BaseURL ++ lit "/projects/" ++ id) with
    | some e =>
      rw [updateProject_run_unbuilt env c ctx up s id e hid hb]
      exact propagates_of_nothing_sent _ _
    | none =>
      rw [updateProject_run env c ctx up s id hid hb]
      exact propagates_of_last_send _ [] _ _ _ (by simp)

/-- C9: no error is swallowed or retried by `GetProject`, `CreateProject` or
`UpdateProject`. In every run of each, a send that returned an error is the
last send of the run and its error is returned, with no project, and a run
that returns a project made only sends that succeeded. Send by send: a failed
listing ends `GetProject` with that error after the one request, so the
request for the single project is not sent; a failed second send ends it with
that error; a failed send ends `CreateProject` and `UpdateProject` with that
error. -/
theorem send_errors_returned_unchanged {σ : Type} (env : Env σ) (c : Client) (ctx : Context)
    (projectId : GoString) (cp : CreateProject) (up : UpdateProject) (s : σ) :
    (c.GetProject env ctx projectId s).PropagatesSendErrors ∧
      (c.CreateProject env ctx cp s).PropagatesSendErrors ∧
      (c.UpdateProject env ctx up s).PropagatesSendErrors ∧
      (∀ e, env.newRequestErr (lit "GET") (c.BaseURL ++ lit "/projects") = none →
        (env.sendProjects s (listRequest c ctx) []).1.err = some e →
        (c.GetProject env ctx projectId s).ret = .error e ∧
          (c.GetProject env ctx projectId s).sent = [⟨listRequest c ctx, some e⟩]) ∧
      (∀ e, env.newRequestErr (lit "GET") (c.BaseURL ++ lit "/projects") = none →
        (env.sendProjects s (listRequest c ctx) []).1.err = none →
        projectExists projectId (env.sendProjects s (listRequest c ctx) []).1.dest = true →
        env.newRequestErr (lit "GET") (c.BaseURL ++ lit "/projects/" ++ projectId) = none →
        (env.sendProject (env.sendProjects s (listRequest c ctx) []).2
          (getRequest c ctx projectId) {}).1.err = some e →
        (c.GetProject env ctx projectId s).ret = .error e ∧
          (c.GetProject env ctx projectId s).sent
            = [⟨listRequest c ctx, none⟩, ⟨getRequest c ctx projectId, some e⟩]) ∧
      (∀ e, env.newRequestErr (lit "POST") (c.BaseURL ++ lit "/projects") = none →
        (env.sendProject s (createRequest c ctx cp.Marshal.1) {}).1.err = some e →
        (c.CreateProject env ctx cp s).ret = .error e ∧
          (c.CreateProject env ctx cp s).sent = [⟨createRequest c ctx cp.Marshal.1, some e⟩]) ∧
      (∀ e id, up.ID = some id →
        env.newRequestErr (lit "POST") (c.BaseURL ++ lit "/projects/" ++ id) = none →
        (env.sendProject s (updateRequest c ctx id up.Marshal.1) {}).1.err = some e →
        (c.UpdateProject env ctx up s).ret = .error e ∧
          (c.UpdateProject env ctx up s).sent
            = [⟨updateRequest c ctx id up.Marshal.1, some e⟩]) := by
  refine ⟨getProject_propagates env c ctx projectId s, createProject_propagates env c ctx cp s,
    updateProject_propagates env c ctx up s, ?_, ?_, ?_, ?_⟩
  · intro e hb he
    rw [getProject_run_listing env c ctx projectId s hb]
    simp only [he, and_self]
  · intro e hb h1 hx hb2 he
    rw [getProject_run_listing env c ctx projectId s hb]
    simp only [h1, hx, if_true, hb2, he, and_self]
  · intro e hb he
    rw [createProject_run env c ctx cp s hb]
    simp only [he, and_self]
  · intro e id hid hb he
    rw [updateProject_run env c ctx up s id hid hb]
    simp only [he, and_self]

/-- Witness of C9: on the failing service the listing of `GetProject` fails;
the error of the send is returned and the listing is the only request. -/
theorem send_errors_returned_unchanged_witness :
    (exampleClient.GetProject failingEnv ⟨7⟩ (lit "1") 0).ret
        = .error ⟨lit "connection refused"⟩ ∧
      (exampleClient.GetProject failingEnv ⟨7⟩ (lit "1") 0).sent
        = [⟨listRequest exampleClient ⟨7⟩, some ⟨lit "connection refused"⟩⟩] :=
  (send_errors_returned_unchanged failingEnv exampleClient ⟨7⟩ (lit "1") {} {} 0).2.2.2.1
    ⟨lit "connection refused"⟩ (by decide) (by decide)

/-- Adding an error diagnostic leaves it in the list. -/
theorem mem_diagsAddError (diags : List Diagnostic) (summary detail : GoString) :
    ⟨.Error, summary, detail⟩ ∈ diagsAddError diags summary detail := by
  unfold diagsAddError diagsAppend
  split
  · rename_i h; simpa [diagsAppend] using h
  · simp [diagsAppend]

/-- C10: for every planned model read without an error diagnostic, the
request `Create` builds has as `Name` the pointer to the planned name and
leaves `ParentID`, `Color`, `IsFavorite` and `ViewStyle` unset, so that the
body of every request sent has the single member "name" and the planned
colour is not transmitted; when the client returns a project, the model
handed to the state has the ID, the name and the colour of that project; when
the client returns an error, no state is written and a "Client Error"
diagnostic with that error is among the diagnostics. -/
theorem create_sends_name_saves_response {σ : Type} (env : Env σ)
    (stateSetDiags : ProjectsResourceModel → List Diagnostic) (r : ProjectsResource)
    (ctx : Context) (req : CreateRequest) (resp : CreateResponse) (s : σ)
    (hplan : diagsHasError (diagsAppend resp.Diagnostics req.planDiags) = false) :
    ProjectsResource.createPayload req.planData
        = { Name := req.planData.Name.ValueStringPointer, ParentID := none, Color := none,
            IsFavorite := none, ViewStyle := none } ∧
      (∀ name, req.planData.Name = .value name →
        (ProjectsResource.createPayload req.planData).Name = some name) ∧
      (r.Create env stateSetDiags ctx req resp s).sent
        = (r.client.CreateProject env ctx (ProjectsResource.createPayload req.planData) s).sent ∧
      (∀ ev ∈ (r.Create env stateSetDiags ctx req resp s).sent,
        ev.req.body
          = some [(lit "name", encPtr encString req.planData.Name.ValueStringPointer)]) ∧
      (∀ response,
        (r.client.CreateProject env ctx (ProjectsResource.createPayload req.planData) s).ret
            = .ok response →
        (r.Create env stateSetDiags ctx req resp s).ret.State
          = some { Id := StringValue response.ID, Name := StringValue response.Name,
                   Color := StringValue response.Color }) ∧
      (∀ err,
        (r.client.CreateProject env ctx (ProjectsResource.createPayload req.planData) s).ret
            = .error err →
        (r.Create env stateSetDiags ctx req resp s).ret.State = resp.State ∧
          ⟨.Error, lit "Client Error", lit "Unable to create project, got error: " ++ err.msg⟩
            ∈ (r.Create env stateSetDiags ctx req resp s).ret.Diagnostics) := by
  have hsent : (r.Create env stateSetDiags ctx req resp s).sent
      = (r.client.CreateProject env ctx (ProjectsResource.createPayload req.planData) s).sent := by
    simp only [ProjectsResource.Create, hplan, Bool.false_eq_true, if_false]
    cases (r.client.CreateProject env ctx (ProjectsResource.createPayload req.planData) s).ret
      <;> rfl
  refine ⟨rfl, ?_, hsent, ?_, ?_, ?_⟩
  · intro name hname
    simp only [ProjectsResource.createPayload, hname, TfString.ValueStringPointer]
  · intro ev hev
    rw [hsent] at hev
    cases hb : env.newRequestErr (lit "POST") (r.client.BaseURL ++ lit "/projects") with
    | some e => rw [createProject_run_unbuilt env r.client ctx _ s e hb] at hev; simp at hev
    | none =>
      rw [createProject_run env r.client ctx _ s hb] at hev
      simp only [List.mem_singleton] at hev
      rw [hev]
      rfl
  · intro response hret
    simp only [ProjectsResource.Create, hplan, Bool.false_eq_true, if_false, hret]
  · intro err hret
    simp only [ProjectsResource.Create, hplan, Bool.false_eq_true, if_false, hret]
    exact ⟨trivial, mem_diagsAddError _ _ _⟩

/-- Witness of C10: the plan asks for the name "myprojectname" and the
colour "red"; the body sent has the name only, and the colour saved is
"charcoal", the one of the answer of the service. -/
theorem create_sends_name_saves_response_witness :
    (ProjectsResource.Create exampleEnv (fun _ => []) ⟨exampleClient⟩ ⟨7⟩
        ⟨⟨.value (lit "myprojectname"), .unknown, .value (lit "red")⟩, []⟩ ⟨[], none⟩ 0).sent
        = [⟨createRequest exampleClient ⟨7⟩ [(lit "name", .str (lit "myprojectname"))], none⟩] ∧
      (ProjectsResource.Create exampleEnv (fun _ => []) ⟨exampleClient⟩ ⟨7⟩
        ⟨⟨.value (lit "myprojectname"), .unknown, .value (lit "red")⟩, []⟩ ⟨[], none⟩ 0).ret.State
        = some { Id := .value (lit "1"), Name := .value (lit "A"),
                 Color := .value (lit "charcoal") } :=
  ⟨by decide,
   (create_sends_name_saves_response exampleEnv (fun _ => []) ⟨exampleClient⟩ ⟨7⟩
      ⟨⟨.value (lit "myprojectname"), .unknown, .value (lit "red")⟩, []⟩ ⟨[], none⟩ 0
      (by decide)).2.2.2.2.1 exampleSingle rfl⟩

/-! ### The round trip of a `Project` through JSON -/

/-- A rune read from a string that is not empty is at least one byte wide. -/
theorem DecodeRune_width_pos (b : UInt8) (rest : GoString) : 1 ≤ (DecodeRune (b :: rest)).2 := by
  simp only [DecodeRune]
  repeat' split
  all_goals simp

/-- The coercion never runs out of fuel: any fuel from the length of the
string on gives the same result. -/
theorem coerceLoop_fuel : ∀ (fuel : Nat) (s : GoString), s.length ≤ fuel →
    coerceLoop fuel s = coerceLoop s.length s
  | 0, [] => fun _ => rfl
  | 0, _ :: _ => fun h => by simp at h
  | _ + 1, [] => fun _ => rfl
  | fuel + 1, b :: rest => fun h => by
    have hw := DecodeRune_width_pos b rest
    have hlen : rest.length ≤ fuel := by simpa using h
    have hdrop : ((b :: rest).drop (DecodeRune (b :: rest)).2).length ≤ rest.length := by
      simp only [List.length_drop, List.length_cons]; omega
    show coerceLoop (fuel + 1) (b :: rest) = coerceLoop (rest.length + 1) (b :: rest)
    unfold coerceLoop
    simp only []
    rw [coerceLoop_fuel fuel rest hlen, coerceLoop_fuel fuel _ (le_trans hdrop hlen),
      coerceLoop_fuel rest.length _ hdrop]

/-- The validity check never runs out of fuel. -/
theorem validLoop_fuel : ∀ (fuel : Nat) (s : GoString), s.length ≤ fuel →
    validLoop fuel s = validLoop s.length s
  | 0, [] => fun _ => rfl
  | 0, _ :: _ => fun h => by simp at h
  | _ + 1, [] => fun _ => rfl
  | fuel + 1, b :: rest => fun h => by
    have hw := DecodeRune_width_pos b rest
    have hlen : rest.length ≤ fuel := by simpa using h
    have hdrop : ((b :: rest).drop (DecodeRune (b :: rest)).2).length ≤ rest.length := by
      simp only [List.length_drop, List.length_cons]; omega
    show validLoop (fuel + 1) (b :: rest) = validLoop (rest.length + 1) (b :: rest)
    unfold validLoop
    simp only []
    rw [validLoop_fuel fuel _ (le_trans hdrop hlen), validLoop_fuel rest.length _ hdrop]

/-- On a string the validity loop accepts, the coercion loop changes nothing. -/
theorem coerceLoop_of_valid : ∀ (fuel : Nat) (s : GoString),
    validLoop fuel s = true → coerceLoop fuel s = s
  | 0, [] => fun _ => rfl
  | 0, _ :: _ => fun h => by simp [validLoop] at h
  | _ + 1, [] => fun _ => rfl
  | fuel + 1, b :: rest => fun h => by
    unfold validLoop at h
    unfold coerceLoop
    by_cases hbad : (DecodeRune (b :: rest)).1 = RuneError ∧ (DecodeRune (b :: rest)).2 = 1
    · simp [hbad] at h
    · simp only [hbad, if_false] at h ⊢
      rw [coerceLoop_of_valid fuel _ h]
      exact List.take_append_drop _ _

/-- Valid UTF-8 goes through `encoding/json` unchanged. -/
theorem coerceUTF8_of_valid (s : GoString) (h : ValidUTF8 s = true) : coerceUTF8 s = s :=
  coerceLoop_of_valid s.length s h

/-- The name in the tag of a field leads back to that field, whatever the
case folding of the library does. -/
theorem find_jsonName (equalFold : GoString → GoString → Bool) (f : ProjectField) :
    ProjectField.find equalFold f.jsonName = some f := by
  cases f <;> rfl

/-- C7 fails on the code: the project whose name is the single byte 0xFF, not
valid UTF-8, is encoded with the replacement rune for a name and decoded to
a project whose name is the three bytes of U+FFFD. -/
theorem project_round_trip_loses_invalid_utf8 :
    ({ Name := [0xFF] } : Project).intsInRange = true ∧
      JsonObject.get? (Project.Marshal { Name := [0xFF] }) (lit "name")
        = some (.str [0xEF, 0xBF, 0xBD]) ∧
      (Project.Unmarshal (fun a b => a == b) (Project.Marshal { Name := [0xFF] }) {}).1
        = { Name := [0xEF, 0xBF, 0xBD] } ∧
      (Project.Unmarshal (fun a b => a == b) (Project.Marshal { Name := [0xFF] }) {}).1
        ≠ { Name := [0xFF] } := by
  decide

/-- C7 as amended: for every `Project` whose six strings are valid UTF-8 (its
two integers being within 64 bits, as Go's `int` is), zero values included,
decoding the document `json.Marshal` writes for it gives the same project
back, field by field and without error, whatever the destination held
before. -/
theorem project_round_trip_valid_utf8 (equalFold : GoString → GoString → Bool)
    (p dest : Project) (hints : p.intsInRange = true)
    (hID : ValidUTF8 p.ID = true) (hName : ValidUTF8 p.Name = true)
    (hColor : ValidUTF8 p.Color = true) (hViewStyle : ValidUTF8 p.ViewStyle = true)
    (hURL : ValidUTF8 p.URL = true) (hParentID : ValidUTF8 p.ParentID = true) :
    Project.Unmarshal equalFold p.Marshal dest = (p, none) := by
  have f := find_jsonName equalFold
  have fID := f .ID; have fName := f .Name; have fCC := f .CommentCount; have fColor := f .Color
  have fIS := f .IsShared; have fO := f .Order; have fIF := f .IsFavorite
  have fIIP := f .IsInboxProject; have fITI := f .IsTeamInbox; have fVS := f .ViewStyle
  have fURL := f .URL; have fPID := f .ParentID
  simp only [ProjectField.jsonName] at fID fName fCC fColor fIS fO fIF fIIP fITI fVS fURL fPID
  simp only [Project.intsInRange, Bool.and_eq_true] at hints
  simp only [Project.Unmarshal, Project.Marshal, member, List.cons_append, List.nil_append,
    unmarshalMembers, fID, fName, fCC, fColor, fIS, fO, fIF, fIIP, fITI, fVS, fURL, fPID,
    Project.store, storeString, storeInt, storeBool, encString, encInt, encBool,
    coerceUTF8_of_valid _ hID, coerceUTF8_of_valid _ hName, coerceUTF8_of_valid _ hColor,
    coerceUTF8_of_valid _ hViewStyle, coerceUTF8_of_valid _ hURL,
    coerceUTF8_of_valid _ hParentID, hints.1, hints.2, if_true]

/-- Witness of amended C7: a project with a name outside ASCII, a negative
order, and zero values in the other fields, decoded over a destination that
held other values. -/
theorem project_round_trip_valid_utf8_witness :
    Project.Unmarshal (fun a b => a == b)
        (Project.Marshal { ID := lit "1", Name := lit "café €", Order := -3, IsFavorite := true })
        { Name := lit "old", CommentCount := 9, IsShared := true }
      = ({ ID := lit "1", Name := lit "café €", Order := -3, IsFavorite := true }, none) :=
  project_round_trip_valid_utf8 (fun a b => a == b)
    { ID := lit "1", Name := lit "café €", Order := -3, IsFavorite := true }
    { Name := lit "old", CommentCount := 9, IsShared := true }
    (by decide) (by decide) (by decide) (by decide) (by decide) (by decide) (by decide)

/-! ### The body of `CreateProject` -/

/-- C4 fails on the code: a request whose colour is set to the single byte
0xFF, not valid UTF-8, is sent with a member "color" that is present but does
not hold the value of the field: it holds the three bytes of U+FFFD. -/
theorem createProject_payload_coerces_invalid_utf8 :
    ({ Name := some (lit "A"), Color := some [0xFF] } : CreateProject).Color = some [0xFF] ∧
      (exampleClient.CreateProject exampleEnv ⟨7⟩
          { Name := some (lit "A"), Color := some [0xFF] } 0).sent
        = [⟨createRequest exampleClient ⟨7⟩
            [(lit "name", .str (lit "A")), (lit "color", .str [0xEF, 0xBF, 0xBD])], none⟩] ∧
      JsonObject.get? (CreateProject.Marshal { Name := some (lit "A"), Color := some [0xFF] }).1
          (lit "color") ≠ some (.str [0xFF]) := by
  decide

/-- C4 as amended: the document `CreateProject` serializes, which is the body
of every request it sends, always has the key "name"; each of the keys
"parent_id", "color", "is_favorite" and "view_style" is in it if and only if
its field is set; an unset field has no member at all, so none with the value
null; a set boolean has the member with its value, false included; a set
string has the member with its very value whenever that value is valid UTF-8,
the empty string included, and with the value coerced to valid UTF-8
otherwise. -/
theorem createProject_payload_optional_keys {σ : Type} (env : Env σ) (c : Client)
    (ctx : Context) (cp : CreateProject) (s : σ) :
    (∀ ev ∈ (c.CreateProject env ctx cp s).sent, ev.req = createRequest c ctx cp.Marshal.1) ∧
      lit "name" ∈ cp.Marshal.1.keys ∧
      (lit "parent_id" ∈ cp.Marshal.1.keys ↔ cp.ParentID ≠ none) ∧
      (lit "color" ∈ cp.Marshal.1.keys ↔ cp.Color ≠ none) ∧
      (lit "is_favorite" ∈ cp.Marshal.1.keys ↔ cp.IsFavorite ≠ none) ∧
      (lit "view_style" ∈ cp.Marshal.1.keys ↔ cp.ViewStyle ≠ none) ∧
      (cp.ParentID = none → cp.Marshal.1.get? (lit "parent_id") = none) ∧
      (cp.Color = none → cp.Marshal.1.get? (lit "color") = none) ∧
      (cp.IsFavorite = none → cp.Marshal.1.get? (lit "is_favorite") = none) ∧
      (cp.ViewStyle = none → cp.Marshal.1.get? (lit "view_style") = none) ∧
      (∀ v, cp.ParentID = some v → ValidUTF8 v = true →
        cp.Marshal.1.get? (lit "parent_id") = some (.str v)) ∧
      (∀ v, cp.Color = some v → ValidUTF8 v = true →
        cp.Marshal.1.get? (lit "color") = some (.str v)) ∧
      (∀ b, cp.IsFavorite = some b → cp.Marshal.1.get? (lit "is_favorite") = some (.bool b)) ∧
      (∀ v, cp.ViewStyle = some v → ValidUTF8 v = true →
        cp.Marshal.1.get? (lit "view_style") = some (.str v)) ∧
      (∀ v, cp.ParentID = some v →
        cp.Marshal.1.get? (lit "parent_id") = some (.str (coerceUTF8 v))) ∧
      (∀ v, cp.Color = some v → cp.Marshal.1.get? (lit "color") = some (.str (coerceUTF8 v))) ∧
      (∀ v, cp.ViewStyle = some v →
        cp.Marshal.1.get? (lit "view_style") = some (.str (coerceUTF8 v))) ∧
      ∀ k ∈ [lit "parent_id", lit "color", lit "is_favorite", lit "view_style"],
        cp.Marshal.1.get? k ≠ some .null := by
  obtain ⟨hk0, hk1, hk2, hk3, hk4⟩ := createProject_keys_contains cp
  obtain ⟨_, hg1, hg2, hg3, hg4⟩ := createProject_get cp
  refine ⟨?_, List.elem_iff.1 hk0, mem_keys_iff_of_contains hk1, mem_keys_iff_of_contains hk2,
    mem_keys_iff_of_contains hk3, mem_keys_iff_of_contains hk4, ?_, ?_, ?_, ?_, ?_, ?_, ?_, ?_,
    ?_, ?_, ?_, ?_⟩
  · intro ev hev
    cases hb : env.newRequestErr (lit "POST") (c.BaseURL ++ lit "/projects") with
    | some e => rw [createProject_run_unbuilt env c ctx cp s e hb] at hev; simp at hev
    | none =>
      rw [createProject_run env c ctx cp s hb] at hev
      simp only [List.mem_singleton] at hev
      rw [hev]
  · intro h; rw [hg1, h]; rfl
  · intro h; rw [hg2, h]; rfl
  · intro h; rw [hg3, h]; rfl
  · intro h; rw [hg4, h]; rfl
  · intro v h hv
    rw [hg1, h, Option.map_some', encString, coerceUTF8_of_valid v hv]
  · intro v h hv
    rw [hg2, h, Option.map_some', encString, coerceUTF8_of_valid v hv]
  · intro b h
    rw [hg3, h]; rfl
  · intro v h hv
    rw [hg4, h, Option.map_some', encString, coerceUTF8_of_valid v hv]
  · intro v h; rw [hg1, h]; rfl
  · intro v h; rw [hg2, h]; rfl
  · intro v h; rw [hg4, h]; rfl
  · intro k hk
    simp only [List.mem_cons, List.mem_singleton, List.not_mem_nil, or_false] at hk
    rcases hk with rfl | rfl | rfl | rfl
    · rw [hg1]; cases cp.ParentID <;> simp [encString]
    · rw [hg2]; cases cp.Color <;> simp [encString]
    · rw [hg3]; cases cp.IsFavorite <;> simp [encBool]
    · rw [hg4]; cases cp.ViewStyle <;> simp [encString]

/-- Witness of amended C4: a request that sets the name, the colour "café €",
valid UTF-8 outside ASCII, a false favourite flag and an empty view style,
and no parent id. The body sent has exactly these four members, and the
members of the colour, the flag and the view style hold the very values of
the fields, the zero values included; the parent id has no member. -/
theorem createProject_payload_optional_keys_witness :
    (exampleClient.CreateProject exampleEnv ⟨7⟩
        { Name := some (lit "A"), Color := some (lit "café €"), IsFavorite := some false,
          ViewStyle := some [] } 0).sent
        = [⟨createRequest exampleClient ⟨7⟩
            [(lit "name", .str (lit "A")), (lit "color", .str (lit "café €")),
             (lit "is_favorite", .bool false), (lit "view_style", .str [])], none⟩] ∧
      JsonObject.get? (CreateProject.Marshal
          { Name := some (lit "A"), Color := some (lit "café €"), IsFavorite := some false,
            ViewStyle := some [] }).1 (lit "color") = some (.str (lit "café €")) ∧
      JsonObject.get? (CreateProject.Marshal
          { Name := some (lit "A"), Color := some (lit "café €"), IsFavorite := some false,
            ViewStyle := some [] }).1 (lit "is_favorite") = some (.bool false) ∧
      JsonObject.get? (CreateProject.Marshal
          { Name := some (lit "A"), Color := some (lit "café €"), IsFavorite := some false,
            ViewStyle := some [] }).1 (lit "view_style") = some (.str []) ∧
      JsonObject.get? (CreateProject.Marshal
          { Name := some (lit "A"), Color := some (lit "café €"), IsFavorite := some false,
            ViewStyle := some [] }).1 (lit "parent_id") = none :=
  have h := createProject_payload_optional_keys exampleEnv exampleClient ⟨7⟩
    { Name := some (lit "A"), Color := some (lit "café €"), IsFavorite := some false,
      ViewStyle := some [] } 0
  ⟨by decide,
   h.2.2.2.2.2.2.2.2.2.2.2.1 (lit "café €") rfl (by decide),
   h.2.2.2.2.2.2.2.2.2.2.2.2.1 false rfl,
   h.2.2.2.2.2.2.2.2.2.2.2.2.2.1 [] rfl (by decide),
   h.2.2.2.2.2.2.1 rfl⟩

end Todoist
